import Mathlib

/-!
Verification of the shuttle proxy core (service.go and its HTTP router /
error-page files) against its natural-language specification.  Go code is
shallowly embedded: byte slices become `List Nat` (a Go nil slice is
`Option.none`), Go maps become association lists read through `List.lookup`,
and the network environment (dial results, fetched HTTP responses) is passed
in explicitly.
-/

namespace Galaxy

/-! ## Error-page cache (ErrorPage / ErrorResponse in service.go) -/

/-- An HTTP response as seen by the error-page fetcher: status code, header
map and body bytes. -/
structure HttpResponse where
  statusCode : Int
  header : List (String × List String)
  body : List Nat
deriving DecidableEq, Repr

/-- `ErrorPage`: location URL, declared status codes, cached body (Go nil
slice = `none`) and cached headers. -/
structure ErrorPage where
  location : String
  statusCodes : List Int
  body : Option (List Nat)
  header : List (String × List String)
deriving DecidableEq, Repr

/-- The fixed allow-list of headers cached for error pages
(`ErrorHeaders` in service.go). -/
def ErrorHeaders : List String :=
  ["Content-Type", "Content-Encoding", "Cache-Control", "Last-Modified",
   "Retry-After", "Set-Cookie"]

/-- The header-capture loop of `ErrorResponse.fetch`: for each allow-listed
key present in the response header map, copy its values. -/
def captureHeaders (h : List (String × List String)) : List (String × List String) :=
  ErrorHeaders.filterMap (fun key => (h.lookup key).map (fun v => (key, v)))

/-- The status rewrite at the top of `ErrorResponse.fetch`: a response status
that is a member of the page's declared status-code set is treated as 200. -/
def effectiveStatus (page : ErrorPage) (code : Int) : Int :=
  if code ∈ page.statusCodes then 200 else code

/-- Environment of one `ErrorResponse.fetch` call: the origin's response
(`none` when `client.Get` itself errored) and whether reading the body
succeeded (`ioutil.ReadAll`). -/
structure FetchResult where
  resp : Option HttpResponse
  readOk : Bool
deriving DecidableEq, Repr

/-- `ErrorResponse.fetch`: on a reachable origin, treat a declared status as
200; bail out (leaving the page unchanged) unless the effective status is
200 and the body read succeeds and the body is non-empty; otherwise store
the allow-listed headers and the body. -/
def fetch (page : ErrorPage) (fr : FetchResult) : ErrorPage :=
  match fr.resp with
  | none => page
  | some resp =>
    if effectiveStatus page resp.statusCode ≠ 200 then page
    else if fr.readOk = false then page
    else if 0 < resp.body.length then
      { page with header := captureHeaders resp.header, body := some resp.body }
    else page

/-- `ErrorResponse.Get`: look the code up in the status→page index; absent
codes yield nothing; a page with a populated body is returned as-is; an
unpopulated page is synchronously re-fetched and then returned (the code
returns the page even when the re-fetch left it unpopulated). -/
def ERGet (pages : List (Int × ErrorPage)) (code : Int) (fr : FetchResult) :
    Option ErrorPage :=
  match pages.lookup code with
  | none => none
  | some page => if page.body.isSome then some page else some (fetch page fr)

/-- What `CheckResponse` wrote to the client's ResponseWriter. -/
structure Written where
  header : List (String × List String)
  status : Int
  body : List Nat
deriving DecidableEq, Repr

/-- `ErrorResponse.CheckResponse`: when `Get` yields a page, write its cached
headers, the upstream status and the cached body and return `false`
(suppressing the default pipeline); otherwise write nothing and return
`true`. -/
def CheckResponse (pages : List (Int × ErrorPage)) (upstreamStatus : Int)
    (fr : FetchResult) : Option Written × Bool :=
  match ERGet pages upstreamStatus fr with
  | some page => (some ⟨page.header, upstreamStatus, page.body.getD []⟩, false)
  | none => (none, true)

/-- The body the client ends up reading: what `CheckResponse` wrote when it
suppressed the pipeline, the upstream body otherwise. -/
def clientBody (pages : List (Int × ErrorPage)) (up : HttpResponse)
    (fr : FetchResult) : List Nat :=
  match CheckResponse pages up.statusCode fr with
  | (some w, _) => w.body
  | (none, _) => up.body

/-! ## Service data model (service.go) -/

/-- The fields of `Backend` that `Service.Dial` and `Service.connect` read or
write: name, dial address, and the counters they update. -/
structure Backend where
  name : String
  addr : String
  errors : Int
  conns : Int
  httpActive : Int
deriving DecidableEq, Repr

/-- The fields of `client.BackendConfig` that `NewBackend` copies. -/
structure BackendConfig where
  name : String
  addr : String
deriving DecidableEq, Repr

/-- `NewBackend`: a fresh backend with zeroed counters. -/
def NewBackend (cfg : BackendConfig) : Backend :=
  { name := cfg.name, addr := cfg.addr, errors := 0, conns := 0, httpActive := 0 }

/-- The two balancer selectors `NewService` may install as `s.next`. -/
inductive Balancer
  | roundRobin
  | leastConn
deriving DecidableEq, Repr

/-- The fields of `client.ServiceConfig` that `NewService` reads. -/
structure ServiceConfig where
  name : String
  addr : String
  balance : String
  checkInterval : Int
  fall : Int
  rise : Int
  clientTimeout : Int
  serverTimeout : Int
  dialTimeout : Int
  backends : List BackendConfig
deriving DecidableEq, Repr

/-- The fields of `Service` the verified operations touch.  `next = none`
models the Go nil function left by an unrecognized balance string;
`listener = none` models the nil listener of a never-started or
failed-to-bind service. -/
structure Service where
  name : String
  addr : String
  checkInterval : Int
  fall : Int
  rise : Int
  clientTimeout : Int
  serverTimeout : Int
  dialTimeout : Int
  backends : List Backend
  next : Option Balancer
  listener : Option Unit
deriving DecidableEq, Repr

/-- `Service.add`: replace the first backend with the same name, else
append. -/
def addB : List Backend → Backend → List Backend
  | [], b => [b]
  | x :: xs, b => if x.name = b.name then b :: xs else x :: addB xs b

/-- `NewService`: copy the config, apply the 2000/2/2 defaults for zero
CheckInterval/Rise/Fall, add the configured backends, and install the
balancer selector (`RR` or empty → round-robin, `LC` → least-connections,
anything else logs and leaves it unset). -/
def NewService (cfg : ServiceConfig) : Service :=
  let s : Service :=
    { name := cfg.name
      addr := cfg.addr
      checkInterval := if cfg.checkInterval = 0 then 2000 else cfg.checkInterval
      fall := if cfg.fall = 0 then 2 else cfg.fall
      rise := if cfg.rise = 0 then 2 else cfg.rise
      clientTimeout := cfg.clientTimeout
      serverTimeout := cfg.serverTimeout
      dialTimeout := cfg.dialTimeout
      backends := cfg.backends.foldl (fun bs b => addB bs (NewBackend b)) []
      next := none
      listener := none }
  { s with next :=
      if cfg.balance = "RR" ∨ cfg.balance = "" then some Balancer.roundRobin
      else if cfg.balance = "LC" then some Balancer.leastConn
      else none }

/-! ## Service.connect (TCP path) -/

/-- Outcome of `Service.connect` for one accepted client connection. -/
inductive ConnectOutcome
  | proxied (backendName : String)
  | closedClient
  | panicked
deriving DecidableEq, Repr

/-- Trace of one `connect` call: final outcome plus the names of the
backends whose `Errors` counter was atomically incremented, in order. -/
structure ConnectTrace where
  outcome : ConnectOutcome
  errorIncrements : List String
deriving DecidableEq, Repr

/-- The backend loop of `Service.connect`: dial each backend in order; on
failure increment its error counter and continue; on the first success proxy
and stop; if the list is exhausted close the client. -/
def connectLoop (dialOk : Backend → Bool) : List Backend → ConnectTrace
  | [] => ⟨ConnectOutcome.closedClient, []⟩
  | b :: rest =>
    if dialOk b then ⟨ConnectOutcome.proxied b.name, []⟩
    else
      let r := connectLoop dialOk rest
      ⟨r.outcome, b.name :: r.errorIncrements⟩

/-- `Service.connect`: call `s.next()` for the ordered backend list and run
the dial loop.  A Go nil function value (`next = none`) panics when
invoked. -/
def connect (s : Service) (balancerOutput : List Backend)
    (dialOk : Backend → Bool) : ConnectTrace :=
  match s.next with
  | none => ⟨ConnectOutcome.panicked, []⟩
  | some _ => connectLoop dialOk balancerOutput

/-! ## Service.Dial (HTTP transport path) -/

/-- A counter cell named by the backend that owns it, standing for the
pointers `&backend.Sent`, `&backend.Rcvd`, `&backend.HTTPActive` handed to
the connection wrapper. -/
inductive CounterId
  | sent (backend : String)
  | rcvd (backend : String)
  | httpActive (backend : String)
deriving DecidableEq, Repr

/-- The connection wrapper built by `Service.Dial` via `NewConn`: the
service's server timeout and the three counter cells it updates. -/
structure Conn where
  rwTimeout : Int
  sentCounter : CounterId
  rcvdCounter : CounterId
  activeCounter : CounterId
deriving DecidableEq, Repr

/-- Result of `Service.Dial`.  Both error constructors are wrapped in
`DialError` by the Go code, marking them retry-safe for the proxy. -/
inductive DialOutcome
  | noBackend (addr : String)
  | dialFailed
  | ok (conn : Conn)
deriving DecidableEq, Repr

/-- Whether a `Service.Dial` result is a `DialError` (the retryable
marker). -/
def DialOutcome.isDialError : DialOutcome → Bool
  | DialOutcome.noBackend _ => true
  | DialOutcome.dialFailed => true
  | DialOutcome.ok _ => false

/-- Update the first list element satisfying `p` (the Go code mutates the
first matching backend through its pointer). -/
def updateFirst (p : Backend → Bool) (f : Backend → Backend) :
    List Backend → List Backend
  | [] => []
  | x :: xs => if p x then f x :: xs else x :: updateFirst p f xs

/-- `Service.Dial`: find the first backend whose `Addr` equals `addr` (none →
retryable `DialError`); dial it (failure → increment its `Errors`, return the
failure in `DialError`); on success wrap the connection with the server
timeout and the backend's counters and increment its `Conns` and
`HTTPActive`.  Returns the outcome and the updated backend list. -/
def SDial (s : Service) (addr : String) (dialOk : Bool) :
    DialOutcome × List Backend :=
  match s.backends.find? (fun b => b.addr == addr) with
  | none => (DialOutcome.noBackend addr, s.backends)
  | some b =>
    if dialOk then
      (DialOutcome.ok
        ⟨s.serverTimeout, CounterId.sent b.name, CounterId.rcvd b.name,
          CounterId.httpActive b.name⟩,
        updateFirst (fun x => x.addr == addr)
          (fun x => { x with conns := x.conns + 1, httpActive := x.httpActive + 1 })
          s.backends)
    else
      (DialOutcome.dialFailed,
        updateFirst (fun x => x.addr == addr)
          (fun x => { x with errors := x.errors + 1 }) s.backends)

/-! ## Service start/stop -/

/-- Side effects of `Service.stop`, in order. -/
inductive StopAction
  | stopBackend (name : String)
  | closeListener
deriving DecidableEq, Repr

/-- `Service.stop`: stop every backend; then, if the listener is nil (bind
failed or never started), return without touching it; otherwise close it. -/
def sStop (s : Service) : List StopAction :=
  let backendStops := s.backends.map (fun b => StopAction.stopBackend b.name)
  match s.listener with
  | none => backendStops
  | some _ => backendStops ++ [StopAction.closeListener]

/-- `Service.start`: bind the listener; on failure the listener field stays
nil and the error is returned. -/
def sStart (s : Service) (bindOk : Bool) : Service × Bool :=
  if bindOk then ({ s with listener := some () }, true)
  else ({ s with listener := none }, false)

/-! ## Host router (HostRouter.ServeHTTP / adminHandler) -/

/-- Index of the last occurrence of `c` in `s` (Go's `last` helper inside
`net.SplitHostPort`). -/
def lastIndexOf (c : Char) : List Char → Option Nat
  | [] => none
  | x :: xs =>
    match lastIndexOf c xs with
    | some j => some (j + 1)
    | none => if x = c then some 0 else none

/-- Go's `net.SplitHostPort`, returning just the host part (`none` on error;
the router's `host` variable then holds the empty string that SplitHostPort
returned together with the error). -/
def splitHostPort (s : List Char) : Option (List Char) :=
  match lastIndexOf ':' s with
  | none => none
  | some i =>
    match s with
    | [] => none
    | c0 :: _ =>
      if c0 = '[' then
        match s.findIdx? (fun x => x = ']') with
        | none => none
        | some e =>
          if e + 1 = s.length then none
          else if e + 1 = i then
            if '[' ∈ s.drop 1 ∨ ']' ∈ s.drop (e + 1) then none
            else some ((s.drop 1).take (e - 1))
          else none
      else
        let host := s.take i
        if ':' ∈ host then none
        else if '[' ∈ s ∨ ']' ∈ s then none
        else some host

/-- What the router needs of a `Service`: its identity and whether its
`httpProxy` field is non-nil. -/
structure SvcRef where
  name : String
  hasHttpProxy : Bool
deriving DecidableEq, Repr

/-- Modelled from the spec: `Registry.GetVHostService` is not under src/;
the spec says "O(1) lookup by exact hostname (no wildcards, no port)" over
the registry's vhost→Service map, embedded as an association-list lookup. -/
def GetVHostService (vhosts : List (String × SvcRef)) (host : List Char) :
    Option SvcRef :=
  vhosts.lookup (String.mk host)

/-- Outcome of one request through `HostRouter.ServeHTTP`. -/
inductive RouteOutcome
  | delegated (svcName : String)
  | noBackends503
  | vhostDump
deriving DecidableEq, Repr

/-- `req.Header.Set`: replace the entry for `k`, else add it. -/
def setHeader (hs : List (String × String)) (k v : String) :
    List (String × String) :=
  if hs.any (fun q => q.1 == k) then
    hs.map (fun q => if q.1 == k then (k, v) else q)
  else hs ++ [(k, v)]

/-- `HostRouter.adminHandler`: with no vhosts registered anywhere answer 503
"no backends available", else dump the vhosts and their backends
(modelled from the spec for `Registry.VHostsLen`, the size of the vhost
map). -/
def adminHandler (vhosts : List (String × SvcRef)) : RouteOutcome :=
  if vhosts.length = 0 then RouteOutcome.noBackends503 else RouteOutcome.vhostDump

/-- `HostRouter.ServeHTTP`: set `X-Request-Id` to the generated id; if the
Host header contains a colon, replace it by `SplitHostPort`'s host result
(the empty string when that errors); look the host up in the registry's
vhost map and delegate to the service when it has an HTTP proxy, otherwise
fall back to the admin handler. -/
def hostRouterServe (vhosts : List (String × SvcRef)) (reqHost : String)
    (reqId : String) (reqHeaders : List (String × String)) :
    List (String × String) × RouteOutcome :=
  let headers := setHeader reqHeaders "X-Request-Id" reqId
  let host : List Char :=
    if ':' ∈ reqHost.data then (splitHostPort reqHost.data).getD []
    else reqHost.data
  (headers,
    match GetVHostService vhosts host with
    | some svc =>
      if svc.hasHttpProxy then RouteOutcome.delegated svc.name
      else adminHandler vhosts
    | none => adminHandler vhosts)

/-! ## Admin API port-collision check (postService) -/

/-- `addr[strings.Index(addr, ":")+1:]`: the text after the first colon;
when there is no colon, `Index` is -1 and the slice is the whole string. -/
def afterFirstColon (s : List Char) : List Char :=
  match s.findIdx? (fun c => c = ':') with
  | none => s
  | some i => s.drop (i + 1)

/-- `strings.HasSuffix(s, suffix)`. -/
def hasSuffix (s suffix : List Char) : Bool :=
  suffix.isSuffixOf s

/-- The rejection test of `postService`: build the two "invalid ports" from
the proxy listener address and the admin listener address and reject the
submitted config when its `Addr` has either as a string suffix. -/
def postServiceRejected (listenAddr adminListenAddr svcAddr : List Char) :
    Bool :=
  let invalidPorts := [afterFirstColon listenAddr, afterFirstColon adminListenAddr]
  invalidPorts.any (fun port => hasSuffix svcAddr port)

/-! ## Theorems -/

theorem connectLoop_all_fail (dialOk : Backend → Bool) (bs : List Backend)
    (h : ∀ a ∈ bs, dialOk a = false) :
    connectLoop dialOk bs =
      ⟨ConnectOutcome.closedClient, bs.map (fun a => a.name)⟩ := by
  induction bs with
  | nil => rfl
  | cons b rest ih =>
    have hb := h b (by simp)
    simp [connectLoop, hb, ih (fun a ha => h a (by simp [ha]))]

theorem connectLoop_first_success (dialOk : Backend → Bool)
    (pre : List Backend) (b : Backend) (post : List Backend)
    (hpre : ∀ a ∈ pre, dialOk a = false) (hb : dialOk b = true) :
    connectLoop dialOk (pre ++ b :: post) =
      ⟨ConnectOutcome.proxied b.name, pre.map (fun a => a.name)⟩ := by
  induction pre with
  | nil => simp [connectLoop, hb]
  | cons a rest ih =>
    have ha := hpre a (by simp)
    simp [connectLoop, ha, ih (fun x hx => hpre x (by simp [hx]))]

/-- Claim C2: when the balancer selector is set, `connect` tries the
balancer's backends in order — every backend before the first dialable one
gets its `Errors` counter incremented, the first success is proxied and the
rest are not touched — and when every dial fails (the empty list included)
the client connection is closed after incrementing every backend's error
counter. -/
theorem c2_connect_tries_in_order (s : Service) (bal : Balancer)
    (dialOk : Backend → Bool) (hnext : s.next = some bal) :
    (∀ pre b post, (∀ a ∈ pre, dialOk a = false) → dialOk b = true →
      connect s (pre ++ b :: post) dialOk =
        ⟨ConnectOutcome.proxied b.name, pre.map (fun a => a.name)⟩) ∧
    (∀ bs, (∀ a ∈ bs, dialOk a = false) →
      connect s bs dialOk =
        ⟨ConnectOutcome.closedClient, bs.map (fun a => a.name)⟩) := by
  constructor
  · intro pre b post hpre hb
    simp [connect, hnext, connectLoop_first_success dialOk pre b post hpre hb]
  · intro bs h
    simp [connect, hnext, connectLoop_all_fail dialOk bs h]

theorem c2_connect_tries_in_order_witness :
    connect
      ⟨"web", ":80", 2000, 2, 2, 0, 0, 0, [], some Balancer.roundRobin, none⟩
      ([⟨"A", "a:1", 0, 0, 0⟩] ++ ⟨"B", "b:1", 0, 0, 0⟩ :: [])
      (fun b => b.name == "B") =
      ⟨ConnectOutcome.proxied "B", ["A"]⟩ :=
  (c2_connect_tries_in_order _ Balancer.roundRobin _ rfl).1
    [⟨"A", "a:1", 0, 0, 0⟩] ⟨"B", "b:1", 0, 0, 0⟩ [] (by decide) (by decide)

/-- Claim C5: `NewService` replaces a zero CheckInterval, Rise or Fall by
the defaults 2000, 2, 2 respectively, and keeps non-zero configured
values. -/
theorem c5_config_defaults (cfg : ServiceConfig) :
    ((cfg.checkInterval = 0 → (NewService cfg).checkInterval = 2000) ∧
     (cfg.rise = 0 → (NewService cfg).rise = 2) ∧
     (cfg.fall = 0 → (NewService cfg).fall = 2)) ∧
    ((cfg.checkInterval ≠ 0 → (NewService cfg).checkInterval = cfg.checkInterval) ∧
     (cfg.rise ≠ 0 → (NewService cfg).rise = cfg.rise) ∧
     (cfg.fall ≠ 0 → (NewService cfg).fall = cfg.fall)) := by
  refine ⟨⟨?_, ?_, ?_⟩, ?_, ?_, ?_⟩ <;> intro h <;> simp [NewService, h]

theorem c5_config_defaults_witness :
    (NewService ⟨"web", ":9000", "", 0, 0, 0, 0, 0, 0, []⟩).checkInterval = 2000 :=
  (c5_config_defaults _).1.1 rfl

/-- Claim C6 (divergence): a config whose balance string is unrecognized
leaves the selector unset, and a connection subsequently accepted is NOT
logged-and-closed: `connect` invokes the nil selector, which panics.  The
upstream body is never forwarded, but neither is the client closed. -/
theorem c6_invalid_balance_panics :
    (NewService ⟨"web", ":9000", "foo", 0, 0, 0, 0, 0, 0, []⟩).next = none ∧
    connect (NewService ⟨"web", ":9000", "foo", 0, 0, 0, 0, 0, 0, []⟩)
        [⟨"A", "a:1", 0, 0, 0⟩] (fun _ => true) =
      ⟨ConnectOutcome.panicked, []⟩ ∧
    ⟨ConnectOutcome.panicked, ([] : List String)⟩ ≠
      (⟨ConnectOutcome.closedClient, []⟩ : ConnectTrace) := by
  refine ⟨by decide, rfl, by decide⟩

/-- Claim C9: `Service.stop` stops every backend; when the listener is nil
(never started, or bind failed in `start`) it returns without closing
anything; when a listener exists it is closed. -/
theorem c9_stop_nil_safe (s : Service) :
    (∀ b ∈ s.backends, StopAction.stopBackend b.name ∈ sStop s) ∧
    (s.listener = none →
      sStop s = s.backends.map (fun b => StopAction.stopBackend b.name) ∧
      StopAction.closeListener ∉ sStop s) ∧
    (s.listener ≠ none → StopAction.closeListener ∈ sStop s) ∧
    (∀ bindOk, bindOk = false → ((sStart s bindOk).1).listener = none) := by
  refine ⟨?_, ?_, ?_, ?_⟩
  · intro b hb
    cases h : s.listener with
    | none =>
      unfold sStop
      rw [h]
      exact List.mem_map_of_mem _ hb
    | some u =>
      unfold sStop
      rw [h]
      exact List.mem_append_left _ (List.mem_map_of_mem _ hb)
  · intro h
    refine ⟨by simp [sStop, h], ?_⟩
    simp [sStop, h]
  · intro h
    cases hl : s.listener with
    | none => exact absurd hl h
    | some u => simp [sStop, hl]
  · intro bindOk h
    simp [sStart, h]

theorem c9_stop_nil_safe_witness :
    sStop ⟨"web", ":80", 2000, 2, 2, 0, 0, 0,
        [⟨"A", "a:1", 0, 0, 0⟩], some Balancer.roundRobin, none⟩ =
      [StopAction.stopBackend "A"] ∧
    StopAction.closeListener ∉
      sStop ⟨"web", ":80", 2000, 2, 2, 0, 0, 0,
        [⟨"A", "a:1", 0, 0, 0⟩], some Balancer.roundRobin, none⟩ :=
  (c9_stop_nil_safe _).2.1 rfl

/-- Claim C10: a fetch whose effective status is 200 but whose body is empty
leaves the page untouched, a fetch can only ever install a non-empty body,
and a `Get` for a status whose page body is still nil performs (and returns
the result of) another synchronous fetch. -/
theorem c10_fetch_nonempty_only (page : ErrorPage) :
    (∀ resp : HttpResponse, effectiveStatus page resp.statusCode = 200 →
      resp.body = [] → fetch page ⟨some resp, true⟩ = page) ∧
    (∀ fr, (fetch page fr).body = page.body ∨
      ∃ b, (fetch page fr).body = some b ∧ 0 < b.length) ∧
    (∀ (code : Int) fr, page.body = none →
      ERGet [(code, page)] code fr = some (fetch page fr)) := by
  refine ⟨?_, ?_, ?_⟩
  · intro resp h200 hbody
    simp [fetch, h200, hbody]
  · intro fr
    cases hr : fr.resp with
    | none => left; simp [fetch, hr]
    | some resp =>
      by_cases h200 : effectiveStatus page resp.statusCode = 200
      · by_cases hro : fr.readOk = false
        · left; simp [fetch, hr, h200, hro]
        · by_cases hb : 0 < resp.body.length
          · right
            exact ⟨resp.body, by simp [fetch, hr, h200, hro, hb], hb⟩
          · left; simp [fetch, hr, h200, hro, hb]
      · left; simp [fetch, hr, h200]
  · intro code fr hnone
    simp [ERGet, List.lookup, hnone]

theorem c10_fetch_nonempty_only_witness :
    fetch ⟨"http://pages/503.html", [503], none, []⟩
        ⟨some ⟨503, [], []⟩, true⟩ =
      ⟨"http://pages/503.html", [503], none, []⟩ :=
  (c10_fetch_nonempty_only _).1 ⟨503, [], []⟩ (by decide) rfl

theorem find?_of_first (p : Backend → Bool) (pre : List Backend)
    (b : Backend) (post : List Backend)
    (hpre : ∀ a ∈ pre, p a = false) (hb : p b = true) :
    (pre ++ b :: post).find? p = some b := by
  induction pre with
  | nil => simp [List.find?, hb]
  | cons a rest ih =>
    have ha := hpre a (by simp)
    simp [List.find?, ha, ih (fun x hx => hpre x (by simp [hx]))]

theorem updateFirst_of_first (p : Backend → Bool) (f : Backend → Backend)
    (pre : List Backend) (b : Backend) (post : List Backend)
    (hpre : ∀ a ∈ pre, p a = false) (hb : p b = true) :
    updateFirst p f (pre ++ b :: post) = pre ++ f b :: post := by
  induction pre with
  | nil => simp [updateFirst, hb]
  | cons a rest ih =>
    have ha := hpre a (by simp)
    simp [updateFirst, ha, ih (fun x hx => hpre x (by simp [hx]))]

/-- Claim C3: `Service.Dial` returns a retryable DialError when no backend
has the exact address; when the first matching backend's dial fails it
increments that backend's Errors and returns a DialError; when the dial
succeeds it returns a connection wrapped with the server timeout and
counters pointing at the backend's Sent, Rcvd and HTTPActive, with the
backend's Conns and HTTPActive incremented. -/
theorem c3_dial_cases (s : Service) (addr : String) :
    ((∀ b ∈ s.backends, b.addr ≠ addr) →
      ∀ d, SDial s addr d = (DialOutcome.noBackend addr, s.backends) ∧
        (SDial s addr d).1.isDialError = true) ∧
    (∀ pre b post, s.backends = pre ++ b :: post →
      (∀ a ∈ pre, a.addr ≠ addr) → b.addr = addr →
      (SDial s addr false =
          (DialOutcome.dialFailed,
            pre ++ { b with errors := b.errors + 1 } :: post) ∧
        (SDial s addr false).1.isDialError = true) ∧
      SDial s addr true =
        (DialOutcome.ok
          ⟨s.serverTimeout, CounterId.sent b.name, CounterId.rcvd b.name,
            CounterId.httpActive b.name⟩,
          pre ++ { b with conns := b.conns + 1,
                          httpActive := b.httpActive + 1 } :: post)) := by
  constructor
  · intro hno d
    have hfind : s.backends.find? (fun b => b.addr == addr) = none := by
      rw [List.find?_eq_none]
      intro x hx
      simp [hno x hx]
    constructor
    · simp [SDial, hfind]
    · simp [SDial, hfind, DialOutcome.isDialError]
  · intro pre b post hsplit hpre hb
    have hpre' : ∀ a ∈ pre, (fun x => x.addr == addr) a = false := by
      intro a ha
      simp [hpre a ha]
    have hb' : (fun x => x.addr == addr) b = true := by simp [hb]
    have hfind : s.backends.find? (fun x => x.addr == addr) = some b := by
      rw [hsplit]
      exact find?_of_first _ pre b post hpre' hb'
    have hupdE :
        updateFirst (fun x => x.addr == addr)
            (fun x => { x with errors := x.errors + 1 }) s.backends =
          pre ++ { b with errors := b.errors + 1 } :: post := by
      rw [hsplit]
      exact updateFirst_of_first _ _ pre b post hpre' hb'
    have hupdC :
        updateFirst (fun x => x.addr == addr)
            (fun x => { x with conns := x.conns + 1,
                               httpActive := x.httpActive + 1 }) s.backends =
          pre ++ { b with conns := b.conns + 1,
                          httpActive := b.httpActive + 1 } :: post := by
      rw [hsplit]
      exact updateFirst_of_first _ _ pre b post hpre' hb'
    refine ⟨⟨?_, ?_⟩, ?_⟩
    · simp [SDial, hfind, hupdE]
    · simp [SDial, hfind, DialOutcome.isDialError]
    · simp [SDial, hfind, hupdC]

theorem c3_dial_cases_witness :
    SDial ⟨"web", ":80", 2000, 2, 2, 0, 42, 0,
        [⟨"A", "a:1", 0, 0, 0⟩, ⟨"B", "b:1", 0, 0, 0⟩],
        some Balancer.roundRobin, none⟩ "b:1" true =
      (DialOutcome.ok
        ⟨42, CounterId.sent "B", CounterId.rcvd "B", CounterId.httpActive "B"⟩,
        [⟨"A", "a:1", 0, 0, 0⟩, ⟨"B", "b:1", 0, 1, 1⟩]) :=
  ((c3_dial_cases _ "b:1").2 [⟨"A", "a:1", 0, 0, 0⟩] ⟨"B", "b:1", 0, 0, 0⟩ []
    rfl (by decide) rfl).2

theorem lookup_capture (keys : List String) (h : List (String × List String))
    (hnd : keys.Nodup) (k : String) :
    (keys.filterMap (fun key => (h.lookup key).map (fun v => (key, v)))).lookup k =
      if k ∈ keys then h.lookup k else none := by
  induction keys with
  | nil => simp
  | cons a rest ih =>
    have hna : a ∉ rest := (List.nodup_cons.mp hnd).1
    have hrest := ih (List.nodup_cons.mp hnd).2
    cases hl : h.lookup a with
    | none =>
      rw [List.filterMap_cons]
      simp only [hl, Option.map_none']
      rw [hrest]
      by_cases hk : k = a
      · subst hk
        simp [hl, hna]
      · simp [hk]
    | some v =>
      rw [List.filterMap_cons]
      simp only [hl, Option.map_some']
      by_cases hk : k = a
      · subst hk
        simp [List.lookup, hl]
      · have hba : (k == a) = false := beq_eq_false_iff_ne.mpr hk
        have hcons :
            List.lookup k
                ((a, v) :: rest.filterMap
                  (fun key => (h.lookup key).map (fun w => (key, w)))) =
              List.lookup k
                (rest.filterMap
                  (fun key => (h.lookup key).map (fun w => (key, w)))) := by
          simp [List.lookup, hba]
        rw [hcons, hrest]
        simp [List.mem_cons, hk]

/-- Claim C4: in `ErrorResponse.fetch`, a response status in the page's
declared status-code set is treated as 200; if the effective status is not
200 the page is left unchanged (its body stays empty); otherwise exactly
the allow-listed headers present in the response are captured together with
the body. -/
theorem c4_fetch_capture (page : ErrorPage) (resp : HttpResponse) :
    (resp.statusCode ∈ page.statusCodes →
      effectiveStatus page resp.statusCode = 200) ∧
    (effectiveStatus page resp.statusCode ≠ 200 →
      fetch page ⟨some resp, true⟩ = page) ∧
    (effectiveStatus page resp.statusCode = 200 → 0 < resp.body.length →
      (fetch page ⟨some resp, true⟩).body = some resp.body ∧
      (fetch page ⟨some resp, true⟩).header = captureHeaders resp.header ∧
      ∀ k, (captureHeaders resp.header).lookup k =
        if k ∈ ErrorHeaders then resp.header.lookup k else none) := by
    refine ⟨?_, ?_, ?_⟩
    · intro hmem
      simp [effectiveStatus, hmem]
    · intro hne
      simp [fetch, hne]
    · intro h200 hlen
      refine ⟨by simp [fetch, h200, hlen], by simp [fetch, h200, hlen], ?_⟩
      intro k
      exact lookup_capture ErrorHeaders resp.header (by decide) k

theorem c4_fetch_capture_witness :
    (fetch ⟨"http://pages/503.html", [503], none, []⟩
        ⟨some ⟨503, [("X-Foo", ["a"]), ("Content-Type", ["text/html"])], [109]⟩,
          true⟩).body = some [109] :=
  ((c4_fetch_capture ⟨"http://pages/503.html", [503], none, []⟩
    ⟨503, [("X-Foo", ["a"]), ("Content-Type", ["text/html"])], [109]⟩).2.2
    (by decide) (by decide)).1

/-- Claim C1 (divergence): with a page registered for status 503 whose body
is still nil and a re-fetch that fails, `CheckResponse` still suppresses the
pipeline (returns false) and the client body becomes empty instead of the
upstream body — the code does not pass the upstream body through when the
page is unpopulated after the synchronous re-fetch. -/
theorem c1_unpopulated_page_suppresses_upstream :
    clientBody [(503, ⟨"http://pages/503.html", [503], none, []⟩)]
        ⟨503, [], [104, 105]⟩ ⟨none, true⟩ = [] ∧
    (CheckResponse [(503, ⟨"http://pages/503.html", [503], none, []⟩)]
        503 ⟨none, true⟩).2 = false ∧
    ([104, 105] : List Nat) ≠ [] := by
  refine ⟨rfl, rfl, by decide⟩

theorem lastIndexOf_eq_none (c : Char) (s : List Char) (h : c ∉ s) :
    lastIndexOf c s = none := by
  induction s with
  | nil => rfl
  | cons x xs ih =>
    have hx : ¬ x = c := by
      rintro rfl
      exact h (by simp)
    have hxs : c ∉ xs := fun hm => h (by simp [hm])
    simp [lastIndexOf, ih hxs, hx]

theorem lastIndexOf_append_colon (h p : List Char) (hp : ':' ∉ p) :
    lastIndexOf ':' (h ++ ':' :: p) = some h.length := by
  induction h with
  | nil => simp [lastIndexOf, lastIndexOf_eq_none ':' p hp]
  | cons x xs ih => simp [lastIndexOf, ih]

theorem splitHostPort_strip (h p : List Char)
    (hh : ∀ c ∈ h, c ≠ ':' ∧ c ≠ '[' ∧ c ≠ ']')
    (hp : ∀ c ∈ p, c ≠ ':' ∧ c ≠ '[' ∧ c ≠ ']') :
    splitHostPort (h ++ ':' :: p) = some h := by
  have hpc : ':' ∉ p := fun hm => (hp ':' hm).1 rfl
  have hli := lastIndexOf_append_colon h p hpc
  have hnoL : '[' ∉ h ++ ':' :: p := by
    intro hm
    rcases List.mem_append.mp hm with hm | hm
    · exact (hh '[' hm).2.1 rfl
    · rcases List.mem_cons.mp hm with hm | hm
      · exact absurd hm (by decide)
      · exact (hp '[' hm).2.1 rfl
  have hnoR : ']' ∉ h ++ ':' :: p := by
    intro hm
    rcases List.mem_append.mp hm with hm | hm
    · exact (hh ']' hm).2.2 rfl
    · rcases List.mem_cons.mp hm with hm | hm
      · exact absurd hm (by decide)
      · exact (hp ']' hm).2.2 rfl
  cases h with
  | nil =>
    simp only [List.nil_append, List.length_nil] at hli hnoL hnoR ⊢
    simp [splitHostPort, hli, hnoL, hnoR]
  | cons a h' =>
    have ha : ¬ a = '[' := by
      intro hm
      exact (hh a (by simp)).2.1 hm
    have hcolon : ':' ∉ a :: h' := by
      intro hm
      exact (hh ':' hm).1 rfl
    have htake : ((a :: h') ++ ':' :: p).take (a :: h').length = a :: h' :=
      List.take_left _ _
    simp only [List.cons_append, List.length_cons] at hli htake hnoL hnoR ⊢
    simp [splitHostPort, hli, ha, htake, hcolon, hnoL, hnoR]

theorem lookup_map_set (hs : List (String × String)) (k v : String) :
    (hs.map (fun q => if q.1 == k then (k, v) else q)).lookup k =
      if hs.any (fun q => q.1 == k) then some v else none := by
  induction hs with
  | nil => simp
  | cons a rest ih =>
    by_cases hk : a.1 = k
    · have hbt : (a.1 == k) = true := beq_iff_eq.mpr hk
      rw [List.map_cons, if_pos hbt]
      simp [List.lookup, List.any_cons, hbt]
    · have hba : (a.1 == k) = false := beq_eq_false_iff_ne.mpr hk
      have hba' : (k == a.1) = false := beq_eq_false_iff_ne.mpr (Ne.symm hk)
      rw [List.map_cons, if_neg (by simp [hba])]
      rw [List.any_cons]
      simp only [List.lookup, hba', hba, Bool.false_or]
      exact ih

theorem lookup_append_missing (hs : List (String × String)) (k v : String)
    (hany : hs.any (fun q => q.1 == k) = false) :
    (hs ++ [(k, v)]).lookup k = some v := by
  induction hs with
  | nil => simp [List.lookup]
  | cons a rest ih =>
    rw [List.any_cons, Bool.or_eq_false_iff] at hany
    have hba' : (k == a.1) = false := by
      rcases beq_eq_false_iff_ne.mp hany.1 with hne
      exact beq_eq_false_iff_ne.mpr (Ne.symm hne)
    simp [List.lookup, hba', ih hany.2]

theorem lookup_setHeader (hs : List (String × String)) (k v : String) :
    (setHeader hs k v).lookup k = some v := by
  unfold setHeader
  by_cases hany : hs.any (fun q => q.1 == k) = true
  · rw [if_pos hany, lookup_map_set hs k v, if_pos hany]
  · have hany' : hs.any (fun q => q.1 == k) = false := Bool.eq_false_iff.mpr hany
    rw [if_neg hany]
    exact lookup_append_missing hs k v hany'

theorem hostRouterServe_strip (vhosts : List (String × SvcRef))
    (h p : List Char) (reqId : String) (hdrs : List (String × String))
    (hh : ∀ c ∈ h, c ≠ ':' ∧ c ≠ '[' ∧ c ≠ ']')
    (hp : ∀ c ∈ p, c ≠ ':' ∧ c ≠ '[' ∧ c ≠ ']') :
    hostRouterServe vhosts (String.mk (h ++ ':' :: p)) reqId hdrs =
      (setHeader hdrs "X-Request-Id" reqId,
        match GetVHostService vhosts h with
        | some svc =>
          if svc.hasHttpProxy then RouteOutcome.delegated svc.name
          else adminHandler vhosts
        | none => adminHandler vhosts) := by
  have hsp := splitHostPort_strip h p hh hp
  have hmem : ':' ∈ h ++ ':' :: p := by simp
  simp [hostRouterServe, hmem, hsp]

/-- Claim C7: `HostRouter.ServeHTTP` sets `X-Request-Id` to the generated
request id, strips a `:port` suffix from the Host header before the vhost
lookup, delegates to the service's ServeHTTP when the registry maps the
host to a service with an HTTP proxy, and otherwise falls back to the admin
handler: 503 "no backends available" when no vhosts are registered, a
plain-text vhost dump otherwise. -/
theorem c7_host_router (vhosts : List (String × SvcRef)) (h p : List Char)
    (reqId : String) (hdrs : List (String × String))
    (hh : ∀ c ∈ h, c ≠ ':' ∧ c ≠ '[' ∧ c ≠ ']')
    (hp : ∀ c ∈ p, c ≠ ':' ∧ c ≠ '[' ∧ c ≠ ']') :
    ((hostRouterServe vhosts (String.mk (h ++ ':' :: p)) reqId hdrs).1.lookup
        "X-Request-Id" = some reqId) ∧
    ((hostRouterServe vhosts (String.mk (h ++ ':' :: p)) reqId hdrs).2 =
      match GetVHostService vhosts h with
      | some svc =>
        if svc.hasHttpProxy then RouteOutcome.delegated svc.name
        else adminHandler vhosts
      | none => adminHandler vhosts) ∧
    (GetVHostService vhosts h = none → vhosts = [] →
      (hostRouterServe vhosts (String.mk (h ++ ':' :: p)) reqId hdrs).2 =
        RouteOutcome.noBackends503) ∧
    (GetVHostService vhosts h = none → vhosts ≠ [] →
      (hostRouterServe vhosts (String.mk (h ++ ':' :: p)) reqId hdrs).2 =
        RouteOutcome.vhostDump) ∧
    (∀ host2 : List Char, ':' ∉ host2 →
      (hostRouterServe vhosts (String.mk host2) reqId hdrs).2 =
        match GetVHostService vhosts host2 with
        | some svc =>
          if svc.hasHttpProxy then RouteOutcome.delegated svc.name
          else adminHandler vhosts
        | none => adminHandler vhosts) := by
  have hmain := hostRouterServe_strip vhosts h p reqId hdrs hh hp
  refine ⟨?_, ?_, ?_, ?_, ?_⟩
  · rw [hmain]
    exact lookup_setHeader hdrs "X-Request-Id" reqId
  · rw [hmain]
  · intro hnone hempty
    rw [hmain, hnone]
    simp [adminHandler, hempty]
  · intro hnone hne
    rw [hmain, hnone]
    have : vhosts.length ≠ 0 := fun hlen => hne (List.eq_nil_of_length_eq_zero hlen)
    simp [adminHandler, this]
  · intro host2 hno
    simp [hostRouterServe, hno]

theorem c7_host_router_witness :
    (hostRouterServe [("a.example", ⟨"X", true⟩)]
        (String.mk ("a.example".data ++ ':' :: "8080".data)) "id1" []).1.lookup
      "X-Request-Id" = some "id1" :=
  (c7_host_router [("a.example", ⟨"X", true⟩)] "a.example".data "8080".data
    "id1" [] (by decide) (by decide)).1

/-- Claim C8 counterexample: with the proxy listening on port 80 and the
admin on 9090, a submitted config with address `127.0.0.1:8080` — whose
port 8080 differs from both — is nevertheless rejected, because the check
is a string-suffix test, not a port-equality test. -/
theorem c8_port_check_counterexample :
    postServiceRejected (":80".data) (":9090".data) ("127.0.0.1:8080".data) =
      true ∧
    afterFirstColon ("127.0.0.1:8080".data) ≠ afterFirstColon (":80".data) ∧
    afterFirstColon ("127.0.0.1:8080".data) ≠ afterFirstColon (":9090".data) := by
  refine ⟨rfl, by decide, by decide⟩

/-- Claim C8 (amended): `postService` rejects a submitted config exactly
when its Addr string ends with the proxy listener's port substring (the
text after the first colon of that listener's address) or the admin
listener's; in particular an Addr literally of the form `host:port` with
either of those ports is always rejected, but an Addr whose own port merely
has one of those digit strings as a suffix is rejected too. -/
theorem c8_port_check_suffix (listen admin svc : List Char) :
    (postServiceRejected listen admin svc = true ↔
      hasSuffix svc (afterFirstColon listen) = true ∨
      hasSuffix svc (afterFirstColon admin) = true) ∧
    (∀ h, postServiceRejected listen admin
      (h ++ ':' :: afterFirstColon listen) = true) ∧
    (∀ h, postServiceRejected listen admin
      (h ++ ':' :: afterFirstColon admin) = true) := by
  refine ⟨?_, ?_, ?_⟩
  · simp [postServiceRejected]
  · intro h
    have hs : hasSuffix (h ++ ':' :: afterFirstColon listen)
        (afterFirstColon listen) = true := by
      rw [hasSuffix, List.isSuffixOf_iff_suffix]
      exact ⟨h ++ [':'], by simp⟩
    simp [postServiceRejected, hs]
  · intro h
    have hs : hasSuffix (h ++ ':' :: afterFirstColon admin)
        (afterFirstColon admin) = true := by
      rw [hasSuffix, List.isSuffixOf_iff_suffix]
      exact ⟨h ++ [':'], by simp⟩
    simp [postServiceRejected, hs]

end Galaxy
